import Mathlib

set_option maxHeartbeats 1000000

namespace CoinWatch

/-!
Shallow embedding of the coingecko-mcp-watchlist in-memory core
(src/database.ts, src/service.ts, validation helpers).

JavaScript Maps are embedded as insertion-ordered association lists
(`List (String × α)`): `Map.get` finds the first matching key,
`Map.set` replaces the value in place or appends a fresh entry at the
end, `Map.delete` removes the entry.  JavaScript Sets are embedded as
insertion-ordered `List String` without duplicates.  `Date` values are
embedded as an explicit `now : Nat` parameter to each mutating
operation.  Thrown `WatchlistError`s are embedded as `Except ErrorCode`
results; an error result carries no store, matching the fact that the
code throws before mutating.  Error messages are not modelled, only the
error codes the claims talk about.
-/

-- ============================================================================
-- JavaScript-style primitives
-- ============================================================================

/-- Embedding of the JavaScript string trim: remove leading and trailing
whitespace characters. -/
def jsTrim (s : String) : String :=
  ⟨((s.data.dropWhile Char.isWhitespace).reverse.dropWhile Char.isWhitespace).reverse⟩

/-- Embedding of JavaScript toLowerCase (restricted to the basic alphabet). -/
def jsToLower (s : String) : String :=
  ⟨s.data.map Char.toLower⟩

/-- Embedding of JavaScript toUpperCase (restricted to the basic alphabet). -/
def jsToUpper (s : String) : String :=
  ⟨s.data.map Char.toUpper⟩

/-- n is an initial segment of h. -/
def leadsWith : List Char → List Char → Bool
  | [], _ => true
  | _ :: _, [] => false
  | a :: as, b :: bs => a == b && leadsWith as bs

/-- n occurs as a contiguous segment of the second list. -/
def hasSegment (n : List Char) : List Char → Bool
  | [] => leadsWith n []
  | c :: t => leadsWith n (c :: t) || hasSegment n t

/-- Embedding of JavaScript String.prototype.includes. -/
def jsIncludes (hay needle : String) : Bool :=
  hasSegment needle.data hay.data

/-- JavaScript `x || d` for an optional number: undefined and 0 are falsy. -/
def jsOrNum (x : Option Int) (d : Int) : Int :=
  match x with
  | none => d
  | some v => if v = 0 then d else v

/-- JavaScript `x || d` for an optional string: undefined and the empty
string are falsy. -/
def jsOrStr (x : Option String) (d : String) : String :=
  match x with
  | none => d
  | some s => if s = "" then d else s

/-- JavaScript truthiness of an optional string: undefined and the empty
string are falsy. -/
def strTruthy (x : Option String) : Bool :=
  match x with
  | none => false
  | some s => s != ""

/-- Embedding of JavaScript Array.prototype.slice with explicit start and
end indices (negative indices count from the end). -/
def jsSlice {α : Type} (l : List α) (start stop : Int) : List α :=
  let len : Int := l.length
  let s := if start < 0 then max (len + start) 0 else min start len
  let e := if stop < 0 then max (len + stop) 0 else min stop len
  (l.drop s.toNat).take (e - s).toNat

-- ============================================================================
-- JavaScript Map and Set embeddings
-- ============================================================================

/-- Map.get: first entry with the given key. -/
def mapGet {α : Type} (m : List (String × α)) (k : String) : Option α :=
  match m with
  | [] => none
  | p :: rest => if p.1 = k then some p.2 else mapGet rest k

/-- Map.set: replace the value of the first entry with the given key in
place, or append a fresh entry at the end. -/
def mapSet {α : Type} (m : List (String × α)) (k : String) (v : α) : List (String × α) :=
  match m with
  | [] => [(k, v)]
  | p :: rest => if p.1 = k then (k, v) :: rest else p :: mapSet rest k v

/-- Map.delete: remove every entry with the given key. -/
def mapDelete {α : Type} (m : List (String × α)) (k : String) : List (String × α) :=
  m.filter (fun p => p.1 != k)

/-- Set.add: append if not already present. -/
def setAdd (s : List String) (x : String) : List String :=
  if x ∈ s then s else s ++ [x]

/-- Set.delete: remove the element. -/
def setDelete (s : List String) (x : String) : List String :=
  s.filter (fun y => y != x)

-- ============================================================================
-- Data model (src/types.ts)
-- ============================================================================

inductive ErrorCode where
  | UNAUTHORIZED
  | NOT_FOUND
  | VALIDATION_ERROR
  | FORBIDDEN
  | RATE_LIMITED
  | INTERNAL_ERROR
deriving DecidableEq

/-- The stored Watchlist record.  The always-empty `coins` placeholder of
the TypeScript record is not stored; item and note enrichment is done on
read, as in the source. -/
structure WatchlistRec where
  id : String
  userId : String
  name : String
  description : Option String
  isPublic : Bool
  createdAt : Nat
  updatedAt : Nat
  tags : List String
deriving DecidableEq

structure WatchlistCoin where
  id : String
  watchlistId : String
  coinId : String
  symbol : String
  name : String
  addedAt : Nat
  targetPrice : Option Int
  notes : Option String
deriving DecidableEq

structure WatchlistNote where
  id : String
  watchlistId : String
  coinId : Option String
  content : String
  createdAt : Nat
  updatedAt : Nat
deriving DecidableEq

/-- The in-memory database schema.  The `users` map of the source is
never read or written by any operation and is omitted. -/
structure DB where
  watchlists : List (String × WatchlistRec)
  watchlistCoins : List (String × List WatchlistCoin)
  notes : List (String × WatchlistNote)
  userWatchlists : List (String × List String)
  publicWatchlists : List String
  coinWatchlists : List (String × List String)
  idCounter : Nat
deriving DecidableEq

def emptyDB : DB :=
  { watchlists := [], watchlistCoins := [], notes := [],
    userWatchlists := [], publicWatchlists := [], coinWatchlists := [],
    idCounter := 1 }

/-- A watchlist as returned to callers: the record enriched with its
current items and notes. -/
structure Enriched where
  record : WatchlistRec
  coins : List WatchlistCoin
  notes : List WatchlistNote
deriving DecidableEq

def exceptOk {α : Type} (e : Except ErrorCode α) : Bool :=
  match e with
  | .ok _ => true
  | .error _ => false

deriving instance DecidableEq for Except

-- ============================================================================
-- InMemoryDatabase (src/database.ts)
-- ============================================================================

/-- generateId: id string formed from the current time and the counter. -/
def generateId (now counter : Nat) : String :=
  "id_" ++ toString now ++ "_" ++ toString counter

/-- getNotesForWatchlist: all notes of the watchlist, optionally
restricted to one coin id (a truthy coinId filters, a falsy one does
not). -/
def getNotesForWatchlist (db : DB) (watchlistId : String) (coinId : Option String) :
    List WatchlistNote :=
  (db.notes.map Prod.snd).filter (fun n =>
    n.watchlistId == watchlistId &&
    (!(strTruthy coinId) || n.coinId == coinId))

/-- enrichWatchlistWithCoins. -/
def enrichWatchlistWithCoins (db : DB) (w : WatchlistRec) : Enriched :=
  { record := w,
    coins := (mapGet db.watchlistCoins w.id).getD [],
    notes := getNotesForWatchlist db w.id none }

structure CreateWatchlistParams where
  name : String
  description : Option String
  isPublic : Option Bool
  tags : Option (List String)
deriving DecidableEq

/-- The watchlist object built by createWatchlist: fresh id from the
current counter, both timestamps set to creation time, visibility and
tags defaulted when absent. -/
def newWatchlistRec (db : DB) (userId : String) (params : CreateWatchlistParams)
    (now : Nat) : WatchlistRec :=
  { id := generateId now db.idCounter, userId := userId, name := params.name,
    description := params.description,
    isPublic := params.isPublic.getD false,
    createdAt := now, updatedAt := now,
    tags := params.tags.getD [] }

/-- InMemoryDatabase.createWatchlist. -/
def DB.createWatchlist (db : DB) (userId : String) (params : CreateWatchlistParams)
    (now : Nat) : WatchlistRec × DB :=
  let w := newWatchlistRec db userId params now
  let db0 := { db with idCounter := db.idCounter + 1 }
  let db1 := { db0 with
    watchlists := mapSet db0.watchlists w.id w,
    watchlistCoins := mapSet db0.watchlistCoins w.id [] }
  let db2 := { db1 with
    userWatchlists :=
      mapSet db1.userWatchlists userId
        ((mapGet db1.userWatchlists userId).getD [] ++ [w.id]) }
  let db3 :=
    if w.isPublic then
      { db2 with publicWatchlists := setAdd db2.publicWatchlists w.id }
    else db2
  (w, db3)

/-- InMemoryDatabase.getWatchlist.  The access check of the source is
`userId && watchlist.userId !== userId && !watchlist.isPublic`, so a
missing (or empty, hence falsy) requester id skips the check entirely. -/
def DB.getWatchlist (db : DB) (watchlistId : String) (userId : Option String) :
    Except ErrorCode Enriched :=
  match mapGet db.watchlists watchlistId with
  | none => .error .NOT_FOUND
  | some w =>
    if strTruthy userId && (userId != some w.userId) && !w.isPublic then
      .error .FORBIDDEN
    else
      .ok (enrichWatchlistWithCoins db w)

/-- The partial update object built by the service layer: one optional
field per mutable attribute. -/
structure WatchlistUpdates where
  name : Option String
  description : Option String
  isPublic : Option Bool
  tags : Option (List String)
deriving DecidableEq

/-- The spread `{...watchlist, ...updates, updatedAt: new Date()}`. -/
def applyUpdates (w : WatchlistRec) (u : WatchlistUpdates) (now : Nat) : WatchlistRec :=
  { w with
    name := u.name.getD w.name,
    description := match u.description with
      | some d => some d
      | none => w.description,
    isPublic := u.isPublic.getD w.isPublic,
    tags := u.tags.getD w.tags,
    updatedAt := now }

/-- InMemoryDatabase.updateWatchlist. -/
def DB.updateWatchlist (db : DB) (watchlistId userId : String)
    (updates : WatchlistUpdates) (now : Nat) : Except ErrorCode (Enriched × DB) :=
  match mapGet db.watchlists watchlistId with
  | none => .error .NOT_FOUND
  | some w =>
    if w.userId ≠ userId then .error .FORBIDDEN
    else
      let updatedWatchlist := applyUpdates w updates now
      let db1 := { db with watchlists := mapSet db.watchlists watchlistId updatedWatchlist }
      let db2 :=
        match updates.isPublic with
        | none => db1
        | some b =>
          if b then { db1 with publicWatchlists := setAdd db1.publicWatchlists watchlistId }
          else { db1 with publicWatchlists := setDelete db1.publicWatchlists watchlistId }
      .ok (enrichWatchlistWithCoins db2 updatedWatchlist, db2)

/-- InMemoryDatabase.deleteWatchlist.  Note: the source removes the
watchlist, its coin rows, its public-set entry, its owner-index entry
and its notes, but never touches the coinWatchlists index. -/
def DB.deleteWatchlist (db : DB) (watchlistId userId : String) : Except ErrorCode DB :=
  match mapGet db.watchlists watchlistId with
  | none => .error .NOT_FOUND
  | some w =>
    if w.userId ≠ userId then .error .FORBIDDEN
    else
      let db1 := { db with
        watchlists := mapDelete db.watchlists watchlistId,
        watchlistCoins := mapDelete db.watchlistCoins watchlistId,
        publicWatchlists := setDelete db.publicWatchlists watchlistId }
      let db2 := { db1 with
        userWatchlists :=
          mapSet db1.userWatchlists userId
            (((mapGet db1.userWatchlists userId).getD []).filter
              (fun i => i != watchlistId)) }
      .ok { db2 with
        notes := db2.notes.filter (fun p => p.2.watchlistId != watchlistId) }

def DEFAULT_PAGE_SIZE : Int := 20
def MAX_PAGE_SIZE : Int := 100

structure GetPublicWatchlistsParams where
  page : Option Int
  limit : Option Int
  search : Option String
  tags : Option (List String)
deriving DecidableEq

/-- The search filter of getPublicWatchlists: case-insensitive substring
match against name or description, skipped when search is falsy. -/
def searchFilter (search : Option String) (ws : List Enriched) : List Enriched :=
  if strTruthy search then
    let searchTerm := jsToLower (search.getD "")
    ws.filter (fun w =>
      jsIncludes (jsToLower w.record.name) searchTerm ||
      (match w.record.description with
       | some d => jsIncludes (jsToLower d) searchTerm
       | none => false))
  else ws

/-- The tags filter of getPublicWatchlists: at least one shared tag,
skipped when tags is absent or empty. -/
def tagsFilter (tags : Option (List String)) (ws : List Enriched) : List Enriched :=
  match tags with
  | some ts =>
    if ts.length > 0 then
      ws.filter (fun w => ts.any (fun tag => w.record.tags.contains tag))
    else ws
  | none => ws

/-- The enriched public watchlists in public-set insertion order, before
filtering. -/
def publicCandidates (db : DB) : List Enriched :=
  (db.publicWatchlists.filterMap (fun id => mapGet db.watchlists id)).map
    (enrichWatchlistWithCoins db)

/-- The filtered, order-preserving public directory. -/
def filteredPublic (db : DB) (search : Option String) (tags : Option (List String)) :
    List Enriched :=
  tagsFilter tags (searchFilter search (publicCandidates db))

structure PublicPage where
  watchlists : List Enriched
  page : Int
  limit : Int
  total : Int
deriving DecidableEq

/-- InMemoryDatabase.getPublicWatchlists. -/
def DB.getPublicWatchlists (db : DB) (params : GetPublicWatchlistsParams) : PublicPage :=
  let page := jsOrNum params.page 1
  let limit := jsOrNum params.limit DEFAULT_PAGE_SIZE
  let offset := (page - 1) * limit
  let watchlists := filteredPublic db params.search params.tags
  let total : Int := watchlists.length
  { watchlists := jsSlice watchlists offset (offset + limit),
    page := page, limit := limit, total := total }

structure AddCoinParams where
  coinId : String
  symbol : Option String
  name : Option String
  targetPrice : Option Int
  notes : Option String
deriving DecidableEq

/-- InMemoryDatabase.addCoinToWatchlist. -/
def DB.addCoinToWatchlist (db : DB) (watchlistId userId : String)
    (params : AddCoinParams) (now : Nat) : Except ErrorCode (WatchlistCoin × DB) :=
  match db.getWatchlist watchlistId (some userId) with
  | .error e => .error e
  | .ok watchlist =>
    if watchlist.record.userId ≠ userId then .error .FORBIDDEN
    else
      let coins := (mapGet db.watchlistCoins watchlistId).getD []
      if coins.any (fun coin => coin.coinId == params.coinId) then
        .error .VALIDATION_ERROR
      else
        let coin : WatchlistCoin :=
          { id := generateId now db.idCounter,
            watchlistId := watchlistId,
            coinId := params.coinId,
            symbol := jsOrStr params.symbol (jsToUpper params.coinId),
            name := jsOrStr params.name params.coinId,
            addedAt := now,
            targetPrice := params.targetPrice,
            notes := params.notes }
        let db0 := { db with idCounter := db.idCounter + 1 }
        let db1 := { db0 with
          watchlistCoins := mapSet db0.watchlistCoins watchlistId (coins ++ [coin]) }
        let db2 := { db1 with
          coinWatchlists :=
            mapSet db1.coinWatchlists params.coinId
              ((mapGet db1.coinWatchlists params.coinId).getD [] ++ [watchlistId]) }
        .ok (coin, db2)

/-- InMemoryDatabase.removeCoinFromWatchlist. -/
def DB.removeCoinFromWatchlist (db : DB) (watchlistId userId coinId : String) :
    Except ErrorCode DB :=
  match db.getWatchlist watchlistId (some userId) with
  | .error e => .error e
  | .ok watchlist =>
    if watchlist.record.userId ≠ userId then .error .FORBIDDEN
    else
      let coins := (mapGet db.watchlistCoins watchlistId).getD []
      let filteredCoins := coins.filter (fun coin => coin.coinId != coinId)
      if filteredCoins.length = coins.length then .error .NOT_FOUND
      else
        let db1 := { db with
          watchlistCoins := mapSet db.watchlistCoins watchlistId filteredCoins }
        .ok { db1 with
          coinWatchlists :=
            mapSet db1.coinWatchlists coinId
              (((mapGet db1.coinWatchlists coinId).getD []).filter
                (fun i => i != watchlistId)) }

structure CoinUpdates where
  targetPrice : Option Int
  notes : Option String
deriving DecidableEq

/-- findIndex followed by in-place replacement: update the first coin
with the given coin id, returning it with the updated list. -/
def updateFirstCoin (coins : List WatchlistCoin) (coinId : String)
    (f : WatchlistCoin → WatchlistCoin) : Option (WatchlistCoin × List WatchlistCoin) :=
  match coins with
  | [] => none
  | c :: rest =>
    if c.coinId = coinId then
      let c2 := f c
      some (c2, c2 :: rest)
    else
      match updateFirstCoin rest coinId f with
      | none => none
      | some (u, rest2) => some (u, c :: rest2)

/-- InMemoryDatabase.updateCoinInWatchlist. -/
def DB.updateCoinInWatchlist (db : DB) (watchlistId userId coinId : String)
    (updates : CoinUpdates) : Except ErrorCode (WatchlistCoin × DB) :=
  match db.getWatchlist watchlistId (some userId) with
  | .error e => .error e
  | .ok watchlist =>
    if watchlist.record.userId ≠ userId then .error .FORBIDDEN
    else
      let coins := (mapGet db.watchlistCoins watchlistId).getD []
      match updateFirstCoin coins coinId (fun c =>
          { c with
            targetPrice := match updates.targetPrice with
              | some v => some v
              | none => c.targetPrice,
            notes := match updates.notes with
              | some s => some s
              | none => c.notes }) with
      | none => .error .NOT_FOUND
      | some (updatedCoin, coins2) =>
        .ok (updatedCoin,
          { db with watchlistCoins := mapSet db.watchlistCoins watchlistId coins2 })

/-- InMemoryDatabase.addNote. -/
def DB.addNote (db : DB) (watchlistId userId content : String) (coinId : Option String)
    (now : Nat) : Except ErrorCode (WatchlistNote × DB) :=
  match db.getWatchlist watchlistId (some userId) with
  | .error e => .error e
  | .ok watchlist =>
    if watchlist.record.userId ≠ userId then .error .FORBIDDEN
    else
      let note : WatchlistNote :=
        { id := generateId now db.idCounter, watchlistId := watchlistId,
          coinId := coinId, content := content, createdAt := now, updatedAt := now }
      let db0 := { db with idCounter := db.idCounter + 1 }
      .ok (note, { db0 with notes := mapSet db0.notes note.id note })

/-- InMemoryDatabase.getWatchlistNotes. -/
def DB.getWatchlistNotes (db : DB) (watchlistId userId : String) (coinId : Option String) :
    Except ErrorCode (List WatchlistNote) :=
  match db.getWatchlist watchlistId (some userId) with
  | .error e => .error e
  | .ok watchlist =>
    if (watchlist.record.userId != userId) && !watchlist.record.isPublic then
      .error .FORBIDDEN
    else
      .ok (getNotesForWatchlist db watchlistId coinId)

/-- InMemoryDatabase.updateNote: look the note up by id, re-resolve its
parent watchlist with the requester id, then re-check ownership. -/
def DB.updateNote (db : DB) (noteId userId content : String) (now : Nat) :
    Except ErrorCode (WatchlistNote × DB) :=
  match mapGet db.notes noteId with
  | none => .error .NOT_FOUND
  | some note =>
    match db.getWatchlist note.watchlistId (some userId) with
    | .error e => .error e
    | .ok watchlist =>
      if watchlist.record.userId ≠ userId then .error .FORBIDDEN
      else
        let updatedNote := { note with content := content, updatedAt := now }
        .ok (updatedNote, { db with notes := mapSet db.notes noteId updatedNote })

/-- InMemoryDatabase.deleteNote. -/
def DB.deleteNote (db : DB) (noteId userId : String) : Except ErrorCode DB :=
  match mapGet db.notes noteId with
  | none => .error .NOT_FOUND
  | some note =>
    match db.getWatchlist note.watchlistId (some userId) with
    | .error e => .error e
    | .ok watchlist =>
      if watchlist.record.userId ≠ userId then .error .FORBIDDEN
      else
        .ok { db with notes := mapDelete db.notes noteId }

structure DatabaseStats where
  watchlistsCount : Nat
  coinsCount : Nat
  notesCount : Nat
  publicWatchlistsCount : Nat
  usersCount : Nat
deriving DecidableEq

/-- InMemoryDatabase.getStats.  usersCount is the size of the owner
index, i.e. the number of its keys. -/
def DB.getStats (db : DB) : DatabaseStats :=
  { watchlistsCount := db.watchlists.length,
    coinsCount := db.watchlistCoins.foldl (fun sum p => sum + p.2.length) 0,
    notesCount := db.notes.length,
    publicWatchlistsCount := db.publicWatchlists.length,
    usersCount := db.userWatchlists.length }

-- ============================================================================
-- Service layer (src/service.ts)
-- ============================================================================

/-- service.createWatchlist: rejects a name that is empty after
trimming, then stores the trimmed fields. -/
def Service.createWatchlist (db : DB) (userId : String) (params : CreateWatchlistParams)
    (now : Nat) : Except ErrorCode (WatchlistRec × DB) :=
  if jsTrim params.name = "" then .error .VALIDATION_ERROR
  else
    .ok (db.createWatchlist userId
      { name := jsTrim params.name,
        description := params.description.map jsTrim,
        isPublic := some (params.isPublic.getD false),
        tags := some (params.tags.getD []) } now)

structure UpdateWatchlistParams where
  name : Option String
  description : Option String
  isPublic : Option Bool
  tags : Option (List String)
deriving DecidableEq

/-- service.updateWatchlist: builds the updates object from exactly the
supplied fields (trimming the strings) and delegates. -/
def Service.updateWatchlist (db : DB) (watchlistId userId : String)
    (params : UpdateWatchlistParams) (now : Nat) : Except ErrorCode (Enriched × DB) :=
  db.updateWatchlist watchlistId userId
    { name := params.name.map jsTrim,
      description := params.description.map jsTrim,
      isPublic := params.isPublic,
      tags := params.tags } now

structure PaginatedResponse where
  data : List Enriched
  page : Int
  limit : Int
  total : Int
  hasNext : Bool
  hasPrevious : Bool
deriving DecidableEq

/-- service.getPublicWatchlists: floors page at 1, clamps the (falsy-
defaulted) limit into [1, MAX_PAGE_SIZE], trims the filters, delegates,
and computes hasNext and hasPrevious. -/
def Service.getPublicWatchlists (db : DB) (params : GetPublicWatchlistsParams) :
    PaginatedResponse :=
  let page := max 1 (jsOrNum params.page 1)
  let limit := min MAX_PAGE_SIZE (max 1 (jsOrNum params.limit DEFAULT_PAGE_SIZE))
  let result := db.getPublicWatchlists
    { page := some page, limit := some limit,
      search := params.search.map jsTrim,
      tags := params.tags.map (fun ts => (ts.map jsTrim).filter (fun t => t.length > 0)) }
  { data := result.watchlists, page := result.page, limit := result.limit,
    total := result.total,
    hasNext := decide (page * limit < result.total),
    hasPrevious := decide (page > 1) }

-- ============================================================================
-- Validation helpers (error utilities module)
-- ============================================================================

/-- validateStringParam: required (undefined, null and the empty string
are rejected), then non-empty after trimming, then the optional maximum
length is checked against the trimmed value (a maxLength of 0 is falsy
and skips the bound, as in the source).  The value is modelled as an
optional string; the not-a-string branch of the source is outside this
embedding. -/
def validateStringParam (value : Option String) (maxLength : Option Nat) :
    Except ErrorCode String :=
  match value with
  | none => .error .VALIDATION_ERROR
  | some s =>
    if s = "" then .error .VALIDATION_ERROR
    else
      let trimmed := jsTrim s
      if trimmed.length = 0 then .error .VALIDATION_ERROR
      else
        match maxLength with
        | some m =>
          if m ≠ 0 ∧ trimmed.length > m then .error .VALIDATION_ERROR
          else .ok trimmed
        | none => .ok trimmed

-- ============================================================================
-- Lemmas about the Map and Set embeddings
-- ============================================================================

theorem mapGet_mapSet_self {α : Type} (m : List (String × α)) (k : String) (v : α) :
    mapGet (mapSet m k v) k = some v := by
  induction m with
  | nil => simp [mapSet, mapGet]
  | cons p rest ih =>
    by_cases h : p.1 = k
    · simp [mapSet, h, mapGet]
    · simp [mapSet, h, mapGet, ih]

theorem mapGet_mapSet_ne {α : Type} (m : List (String × α)) {k k2 : String} (v : α)
    (h : k ≠ k2) : mapGet (mapSet m k v) k2 = mapGet m k2 := by
  induction m with
  | nil => simp [mapSet, mapGet, h]
  | cons p rest ih =>
    by_cases hp : p.1 = k
    · simp [mapSet, hp, mapGet, h]
    · simp [mapSet, hp, mapGet, ih]

theorem mapGet_isSome_iff {α : Type} (m : List (String × α)) (k : String) :
    (mapGet m k).isSome = true ↔ k ∈ m.map Prod.fst := by
  induction m with
  | nil => simp [mapGet]
  | cons p rest ih =>
    by_cases h : p.1 = k
    · simp [mapGet, h]
    · simp [mapGet, h, ih, Ne.symm h]

theorem mapGet_eq_none_iff {α : Type} (m : List (String × α)) (k : String) :
    mapGet m k = none ↔ k ∉ m.map Prod.fst := by
  rw [← mapGet_isSome_iff]
  cases mapGet m k <;> simp

theorem mapGet_mem {α : Type} {m : List (String × α)} {k : String} {v : α}
    (h : mapGet m k = some v) : (k, v) ∈ m := by
  induction m with
  | nil => simp [mapGet] at h
  | cons p rest ih =>
    by_cases hp : p.1 = k
    · simp [mapGet, hp] at h
      have hpq : p = (k, v) := by
        cases p
        simp_all
      rw [← hpq]
      exact List.mem_cons_self p rest
    · simp [mapGet, hp] at h
      exact List.mem_cons_of_mem p (ih h)

theorem mapSet_of_fresh {α : Type} {m : List (String × α)} {k : String} (v : α)
    (h : mapGet m k = none) : mapSet m k v = m ++ [(k, v)] := by
  induction m with
  | nil => simp [mapSet]
  | cons p rest ih =>
    by_cases hp : p.1 = k
    · simp [mapGet, hp] at h
    · simp [mapGet, hp] at h
      simp [mapSet, hp, ih h]

theorem keys_mapSet {α : Type} (m : List (String × α)) (k : String) (v : α) :
    (mapSet m k v).map Prod.fst =
      if k ∈ m.map Prod.fst then m.map Prod.fst else m.map Prod.fst ++ [k] := by
  induction m with
  | nil => simp [mapSet]
  | cons p rest ih =>
    by_cases hp : p.1 = k
    · simp [mapSet, hp]
    · by_cases hk : k ∈ rest.map Prod.fst
      · simp [mapSet, hp, ih, hk, Ne.symm hp]
      · simp [mapSet, hp, ih, hk, Ne.symm hp]

theorem length_mapSet {α : Type} (m : List (String × α)) (k : String) (v : α) :
    (mapSet m k v).length =
      if k ∈ m.map Prod.fst then m.length else m.length + 1 := by
  have h := congrArg List.length (keys_mapSet m k v)
  simp only [List.length_map] at h
  rw [h]
  by_cases hk : k ∈ m.map Prod.fst <;> simp [hk]

theorem mem_mapSet_of_mem {α : Type} {m : List (String × α)} {k : String} {v : α}
    {q : String × α} (hq : q ∈ m) (hne : q.1 ≠ k) : q ∈ mapSet m k v := by
  induction m with
  | nil => simp at hq
  | cons p rest ih =>
    by_cases hp : p.1 = k
    · simp [mapSet, hp]
      rcases List.mem_cons.mp hq with h | h
      · exact absurd (h ▸ hp) hne
      · exact Or.inr h
    · simp [mapSet, hp]
      rcases List.mem_cons.mp hq with h | h
      · exact Or.inl h
      · exact Or.inr (ih h)

theorem mem_mapSet_elim {α : Type} {m : List (String × α)} {k : String} {v : α}
    (hnd : (m.map Prod.fst).Nodup) {q : String × α} (hq : q ∈ mapSet m k v) :
    (q ∈ m ∧ q.1 ≠ k) ∨ q = (k, v) := by
  induction m with
  | nil =>
    simp [mapSet] at hq
    exact Or.inr hq
  | cons p rest ih =>
    simp only [List.map_cons, List.nodup_cons] at hnd
    by_cases hp : p.1 = k
    · simp only [mapSet, hp, if_pos] at hq
      rcases List.mem_cons.mp hq with h | h
      · exact Or.inr h
      · left
        refine ⟨List.mem_cons_of_mem p h, ?_⟩
        intro hk
        apply hnd.1
        rw [hp, ← hk]
        exact List.mem_map_of_mem Prod.fst h
    · simp only [mapSet, hp, if_neg, not_false_iff] at hq
      rcases List.mem_cons.mp hq with h | h
      · subst h
        exact Or.inl ⟨List.mem_cons_self q rest, hp⟩
      · rcases ih hnd.2 h with ⟨h1, h2⟩ | h1
        · exact Or.inl ⟨List.mem_cons_of_mem p h1, h2⟩
        · exact Or.inr h1

theorem mem_setAdd {s : List String} {x y : String} :
    y ∈ setAdd s x ↔ y ∈ s ∨ y = x := by
  by_cases h : x ∈ s
  · simp [setAdd, h]
    intro hy
    exact hy ▸ h
  · simp [setAdd, h]

theorem mem_setDelete {s : List String} {x y : String} :
    y ∈ setDelete s x ↔ y ∈ s ∧ y ≠ x := by
  simp [setDelete, List.mem_filter]

-- ============================================================================
-- Claim C1 (code divergence at the failing input)
-- ============================================================================

def c1db : DB :=
  (emptyDB.createWatchlist "alice"
    { name := "secret", description := none, isPublic := some false, tags := none } 5).2

/-- Claim C1: the claim says that getWatchlist on a private watchlist
fails FORBIDDEN whenever the requester id is absent or differs from the
owner.  The code, at the failing input: the stored watchlist "id_5_1"
is private, a different requester is refused FORBIDDEN, but a call with
no requester id at all (and likewise with an empty, falsy one) succeeds
and returns the private watchlist, because the access check is guarded
by the truthiness of the requester id. -/
theorem c1_private_watchlist_returned_without_requester :
    (mapGet c1db.watchlists "id_5_1").map (fun w => w.isPublic) = some false ∧
    c1db.getWatchlist "id_5_1" (some "bob") = .error .FORBIDDEN ∧
    exceptOk (c1db.getWatchlist "id_5_1" none) = true ∧
    exceptOk (c1db.getWatchlist "id_5_1" (some "")) = true := by
  decide

-- ============================================================================
-- Claim C2 (code divergence at the failing input)
-- ============================================================================

def c2dbA : DB :=
  (emptyDB.createWatchlist "alice"
    { name := "n", description := none, isPublic := some false, tags := none } 5).2

def c2dbB : DB :=
  match c2dbA.addCoinToWatchlist "id_5_1" "alice"
    { coinId := "bitcoin", symbol := none, name := none,
      targetPrice := none, notes := none } 6 with
  | .ok r => r.2
  | .error _ => c2dbA

def c2dbC : DB :=
  match c2dbB.deleteWatchlist "id_5_1" "alice" with
  | .ok d => d
  | .error _ => c2dbB

/-- Claim C2: the claim says that after a successful owner delete the
watchlist id is absent from all three secondary indexes.  The code, at
the failing input (create a watchlist, add the coin "bitcoin", delete
the watchlist): the record, its item rows, its notes, its owner-index
entry and its public-set entry are all gone, but the catalog-id index
still maps "bitcoin" to the deleted watchlist id, because
deleteWatchlist never touches the coinWatchlists index. -/
theorem c2_coin_index_not_cleared_on_delete :
    exceptOk (c2dbB.deleteWatchlist "id_5_1" "alice") = true ∧
    mapGet c2dbC.watchlists "id_5_1" = none ∧
    mapGet c2dbC.watchlistCoins "id_5_1" = none ∧
    c2dbC.notes.filter (fun p => p.2.watchlistId == "id_5_1") = [] ∧
    (mapGet c2dbC.userWatchlists "alice").getD [] = [] ∧
    "id_5_1" ∉ c2dbC.publicWatchlists ∧
    "id_5_1" ∈ (mapGet c2dbC.coinWatchlists "bitcoin").getD [] := by
  decide

-- ============================================================================
-- Claim C9
-- ============================================================================

/-- Claim C9: creating a watchlist whose name consists only of
whitespace (equivalently: whose trimmed name is empty) fails
VALIDATION_ERROR before the store is touched — the error result carries
no store, so the store is unchanged — and the reusable required-string
check rejects such a value for every declared maximum length, because it
tests the trimmed value. -/
theorem c9_whitespace_name_rejected :
    (∀ (db : DB) (uid : String) (p : CreateWatchlistParams) (now : Nat),
        jsTrim p.name = "" →
        Service.createWatchlist db uid p now = .error .VALIDATION_ERROR) ∧
    (∀ (s : String) (maxLen : Option Nat),
        jsTrim s = "" →
        validateStringParam (some s) maxLen = .error .VALIDATION_ERROR) := by
  constructor
  · intro db uid p now h
    simp [Service.createWatchlist, h]
  · intro s maxLen h
    by_cases hs : s = ""
    · simp [validateStringParam, hs]
    · simp [validateStringParam, hs, h]

/-- Witness for C9 at the concrete whitespace-only name " ". -/
theorem c9_whitespace_name_rejected_witness :
    Service.createWatchlist emptyDB "alice"
      { name := " ", description := none, isPublic := none, tags := none } 0
      = .error .VALIDATION_ERROR ∧
    validateStringParam (some " ") (some 100) = .error .VALIDATION_ERROR := by
  exact ⟨c9_whitespace_name_rejected.1 emptyDB "alice"
      { name := " ", description := none, isPublic := none, tags := none } 0 (by decide),
    c9_whitespace_name_rejected.2 " " (some 100) (by decide)⟩

-- ============================================================================
-- Claim C10
-- ============================================================================

/-- Claim C10: the reported distinct-owner count is the number of owner
ids that have created at least one watchlist, not the number currently
owning one: a successful deleteWatchlist leaves the owner key in the
owner index (with a possibly empty list), so the reported usersCount
never decreases, and is exactly unchanged when the owner was already
indexed; createWatchlist always leaves the creator indexed. -/
theorem c10_owner_count_not_decreased_by_delete :
    (∀ (db : DB) (wid uid : String) (db2 : DB),
        DB.deleteWatchlist db wid uid = .ok db2 →
        (mapGet db2.userWatchlists uid).isSome = true ∧
        db.getStats.usersCount ≤ db2.getStats.usersCount ∧
        ((mapGet db.userWatchlists uid).isSome = true →
          db2.getStats.usersCount = db.getStats.usersCount)) ∧
    (∀ (db : DB) (uid : String) (p : CreateWatchlistParams) (now : Nat),
        (mapGet (db.createWatchlist uid p now).2.userWatchlists uid).isSome = true) := by
  constructor
  · intro db wid uid db2 hdel
    cases hw : mapGet db.watchlists wid with
    | none => simp [DB.deleteWatchlist, hw] at hdel
    | some w =>
      by_cases hown : w.userId ≠ uid
      · simp [DB.deleteWatchlist, hw, hown] at hdel
      · simp only [DB.deleteWatchlist, hw, hown, if_neg, not_false_iff,
          ite_false, Except.ok.injEq] at hdel
        subst hdel
        refine ⟨?_, ?_, ?_⟩
        · simp [mapGet_mapSet_self]
        · simp only [DB.getStats, length_mapSet]
          by_cases hk : uid ∈ db.userWatchlists.map Prod.fst <;> simp [hk]
        · intro hsome
          rw [mapGet_isSome_iff] at hsome
          simp [DB.getStats, length_mapSet, hsome]
  · intro db uid p now
    simp only [DB.createWatchlist]
    by_cases hpub : (newWatchlistRec db uid p now).isPublic = true <;>
      simp [hpub, mapGet_mapSet_self]

def c10db : DB :=
  (emptyDB.createWatchlist "alice"
    { name := "n", description := none, isPublic := none, tags := none } 5).2

def c10db2 : DB :=
  match c10db.deleteWatchlist "id_5_1" "alice" with
  | .ok d => d
  | .error _ => c10db

/-- Witness for C10: create one watchlist for alice, then delete it; the
owner entry survives and the reported owner count is unchanged. -/
theorem c10_owner_count_not_decreased_by_delete_witness :
    (mapGet c10db2.userWatchlists "alice").isSome = true ∧
    c10db.getStats.usersCount ≤ c10db2.getStats.usersCount ∧
    c10db2.getStats.usersCount = c10db.getStats.usersCount := by
  have h := c10_owner_count_not_decreased_by_delete.1 c10db "id_5_1" "alice" c10db2
    (by decide)
  exact ⟨h.1, h.2.1, h.2.2 (by decide)⟩

-- ============================================================================
-- Shared lemmas about getWatchlist
-- ============================================================================

theorem getWatchlist_missing {db : DB} {wid : String} (u : Option String)
    (h : mapGet db.watchlists wid = none) :
    db.getWatchlist wid u = .error .NOT_FOUND := by
  simp [DB.getWatchlist, h]

theorem getWatchlist_found {db : DB} {wid : String} {w : WatchlistRec} (u : Option String)
    (h : mapGet db.watchlists wid = some w) :
    db.getWatchlist wid u = .error .FORBIDDEN ∨
      db.getWatchlist wid u = .ok (enrichWatchlistWithCoins db w) := by
  simp only [DB.getWatchlist, h]
  by_cases hc : (strTruthy u && (u != some w.userId) && !w.isPublic) = true
  · simp [hc]
  · simp [hc]

-- ============================================================================
-- Claim C5
-- ============================================================================

/-- Claim C5: on every operation of the store, existence is checked
before authorization: a missing referenced watchlist (and, for the note
operations, a missing note) yields NOT_FOUND, and a FORBIDDEN result is
only ever produced when the referenced resources exist. -/
theorem c5_existence_checked_before_authorization :
    (∀ (db : DB) (wid : String) (u : Option String),
        mapGet db.watchlists wid = none →
        db.getWatchlist wid u = .error .NOT_FOUND) ∧
    (∀ (db : DB) (wid : String) (u : Option String),
        db.getWatchlist wid u = .error .FORBIDDEN →
        (mapGet db.watchlists wid).isSome = true) ∧
    (∀ (db : DB) (wid uid : String) (upd : WatchlistUpdates) (now : Nat),
        mapGet db.watchlists wid = none →
        db.updateWatchlist wid uid upd now = .error .NOT_FOUND) ∧
    (∀ (db : DB) (wid uid : String) (upd : WatchlistUpdates) (now : Nat),
        db.updateWatchlist wid uid upd now = .error .FORBIDDEN →
        (mapGet db.watchlists wid).isSome = true) ∧
    (∀ (db : DB) (wid uid : String),
        mapGet db.watchlists wid = none →
        db.deleteWatchlist wid uid = .error .NOT_FOUND) ∧
    (∀ (db : DB) (wid uid : String),
        db.deleteWatchlist wid uid = .error .FORBIDDEN →
        (mapGet db.watchlists wid).isSome = true) ∧
    (∀ (db : DB) (wid uid : String) (p : AddCoinParams) (now : Nat),
        mapGet db.watchlists wid = none →
        db.addCoinToWatchlist wid uid p now = .error .NOT_FOUND) ∧
    (∀ (db : DB) (wid uid : String) (p : AddCoinParams) (now : Nat),
        db.addCoinToWatchlist wid uid p now = .error .FORBIDDEN →
        (mapGet db.watchlists wid).isSome = true) ∧
    (∀ (db : DB) (wid uid cid : String),
        mapGet db.watchlists wid = none →
        db.removeCoinFromWatchlist wid uid cid = .error .NOT_FOUND) ∧
    (∀ (db : DB) (wid uid cid : String),
        db.removeCoinFromWatchlist wid uid cid = .error .FORBIDDEN →
        (mapGet db.watchlists wid).isSome = true) ∧
    (∀ (db : DB) (wid uid cid : String) (upd : CoinUpdates),
        mapGet db.watchlists wid = none →
        db.updateCoinInWatchlist wid uid cid upd = .error .NOT_FOUND) ∧
    (∀ (db : DB) (wid uid cid : String) (upd : CoinUpdates),
        db.updateCoinInWatchlist wid uid cid upd = .error .FORBIDDEN →
        (mapGet db.watchlists wid).isSome = true) ∧
    (∀ (db : DB) (wid uid content : String) (cid : Option String) (now : Nat),
        mapGet db.watchlists wid = none →
        db.addNote wid uid content cid now = .error .NOT_FOUND) ∧
    (∀ (db : DB) (wid uid content : String) (cid : Option String) (now : Nat),
        db.addNote wid uid content cid now = .error .FORBIDDEN →
        (mapGet db.watchlists wid).isSome = true) ∧
    (∀ (db : DB) (wid uid : String) (cid : Option String),
        mapGet db.watchlists wid = none →
        db.getWatchlistNotes wid uid cid = .error .NOT_FOUND) ∧
    (∀ (db : DB) (wid uid : String) (cid : Option String),
        db.getWatchlistNotes wid uid cid = .error .FORBIDDEN →
        (mapGet db.watchlists wid).isSome = true) ∧
    (∀ (db : DB) (nid uid content : String) (now : Nat),
        mapGet db.notes nid = none →
        db.updateNote nid uid content now = .error .NOT_FOUND) ∧
    (∀ (db : DB) (nid uid content : String) (now : Nat) (note : WatchlistNote),
        mapGet db.notes nid = some note →
        mapGet db.watchlists note.watchlistId = none →
        db.updateNote nid uid content now = .error .NOT_FOUND) ∧
    (∀ (db : DB) (nid uid content : String) (now : Nat),
        db.updateNote nid uid content now = .error .FORBIDDEN →
        ∃ note, mapGet db.notes nid = some note ∧
          (mapGet db.watchlists note.watchlistId).isSome = true) ∧
    (∀ (db : DB) (nid uid : String),
        mapGet db.notes nid = none →
        db.deleteNote nid uid = .error .NOT_FOUND) ∧
    (∀ (db : DB) (nid uid : String) (note : WatchlistNote),
        mapGet db.notes nid = some note →
        mapGet db.watchlists note.watchlistId = none →
        db.deleteNote nid uid = .error .NOT_FOUND) ∧
    (∀ (db : DB) (nid uid : String),
        db.deleteNote nid uid = .error .FORBIDDEN →
        ∃ note, mapGet db.notes nid = some note ∧
          (mapGet db.watchlists note.watchlistId).isSome = true) := by
  refine ⟨?_, ?_, ?_, ?_, ?_, ?_, ?_, ?_, ?_, ?_, ?_, ?_, ?_, ?_, ?_, ?_, ?_, ?_, ?_,
    ?_, ?_, ?_⟩
  · intro db wid u h
    exact getWatchlist_missing u h
  · intro db wid u h
    cases hw : mapGet db.watchlists wid with
    | none => rw [getWatchlist_missing u hw] at h; simp at h
    | some w => simp
  · intro db wid uid upd now h
    simp [DB.updateWatchlist, h]
  · intro db wid uid upd now h
    cases hw : mapGet db.watchlists wid with
    | none => simp [DB.updateWatchlist, hw] at h
    | some w => simp
  · intro db wid uid h
    simp [DB.deleteWatchlist, h]
  · intro db wid uid h
    cases hw : mapGet db.watchlists wid with
    | none => simp [DB.deleteWatchlist, hw] at h
    | some w => simp
  · intro db wid uid p now h
    simp [DB.addCoinToWatchlist, getWatchlist_missing (some uid) h]
  · intro db wid uid p now h
    cases hw : mapGet db.watchlists wid with
    | none => simp [DB.addCoinToWatchlist, getWatchlist_missing (some uid) hw] at h
    | some w => simp
  · intro db wid uid cid h
    simp [DB.removeCoinFromWatchlist, getWatchlist_missing (some uid) h]
  · intro db wid uid cid h
    cases hw : mapGet db.watchlists wid with
    | none => simp [DB.removeCoinFromWatchlist, getWatchlist_missing (some uid) hw] at h
    | some w => simp
  · intro db wid uid cid upd h
    simp [DB.updateCoinInWatchlist, getWatchlist_missing (some uid) h]
  · intro db wid uid cid upd h
    cases hw : mapGet db.watchlists wid with
    | none => simp [DB.updateCoinInWatchlist, getWatchlist_missing (some uid) hw] at h
    | some w => simp
  · intro db wid uid content cid now h
    simp [DB.addNote, getWatchlist_missing (some uid) h]
  · intro db wid uid content cid now h
    cases hw : mapGet db.watchlists wid with
    | none => simp [DB.addNote, getWatchlist_missing (some uid) hw] at h
    | some w => simp
  · intro db wid uid cid h
    simp [DB.getWatchlistNotes, getWatchlist_missing (some uid) h]
  · intro db wid uid cid h
    cases hw : mapGet db.watchlists wid with
    | none => simp [DB.getWatchlistNotes, getWatchlist_missing (some uid) hw] at h
    | some w => simp
  · intro db nid uid content now h
    simp [DB.updateNote, h]
  · intro db nid uid content now note hn h
    simp [DB.updateNote, hn, getWatchlist_missing (some uid) h]
  · intro db nid uid content now h
    cases hn : mapGet db.notes nid with
    | none => simp [DB.updateNote, hn] at h
    | some note =>
      cases hw : mapGet db.watchlists note.watchlistId with
      | none => simp [DB.updateNote, hn, getWatchlist_missing (some uid) hw] at h
      | some w => exact ⟨note, rfl, by simp [hw]⟩
  · intro db nid uid h
    simp [DB.deleteNote, h]
  · intro db nid uid note hn h
    simp [DB.deleteNote, hn, getWatchlist_missing (some uid) h]
  · intro db nid uid h
    cases hn : mapGet db.notes nid with
    | none => simp [DB.deleteNote, hn] at h
    | some note =>
      cases hw : mapGet db.watchlists note.watchlistId with
      | none => simp [DB.deleteNote, hn, getWatchlist_missing (some uid) hw] at h
      | some w => exact ⟨note, rfl, by simp [hw]⟩

def c5db : DB :=
  (emptyDB.createWatchlist "alice"
    { name := "n", description := none, isPublic := some false, tags := none } 5).2

def c5dbN : DB :=
  match c5db.addNote "id_5_1" "alice" "hello" none 6 with
  | .ok r => r.2
  | .error _ => c5db

/-- Witness for C5: on the empty store a read of a missing id is
NOT_FOUND; on a store with a private watchlist and a note, a FORBIDDEN
updateNote by a non-owner implies the note and its watchlist exist. -/
theorem c5_existence_checked_before_authorization_witness :
    CoinWatch.emptyDB.getWatchlist "nope" none = .error .NOT_FOUND ∧
    (mapGet c5dbN.notes "id_6_2").isSome = true := by
  constructor
  · exact c5_existence_checked_before_authorization.1 emptyDB "nope" none (by decide)
  · have h := c5_existence_checked_before_authorization.2.2.2.2.2.2.2.2.2.2.2.2.2.2.2.2.2.2.1
      c5dbN "id_6_2" "bob" "x" 9 (by decide)
    rcases h with ⟨note, hn, _⟩
    simp [hn]

-- ============================================================================
-- Claim C7
-- ============================================================================

/-- Claim C7: updateNote and deleteNote re-resolve the parent watchlist
from the stored note and re-check the requester against its current
owner: a successful call implies the requester is the current owner, and
with existing note and watchlist a non-owner requester is always refused
FORBIDDEN (a missing note or watchlist is refused NOT_FOUND, per C5), the
error result carrying no modified store. -/
theorem c7_note_mutation_owner_only :
    (∀ (db : DB) (nid uid content : String) (now : Nat) (res : WatchlistNote × DB),
        DB.updateNote db nid uid content now = .ok res →
        ∃ note w, mapGet db.notes nid = some note ∧
          mapGet db.watchlists note.watchlistId = some w ∧ w.userId = uid) ∧
    (∀ (db : DB) (nid uid : String) (db2 : DB),
        DB.deleteNote db nid uid = .ok db2 →
        ∃ note w, mapGet db.notes nid = some note ∧
          mapGet db.watchlists note.watchlistId = some w ∧ w.userId = uid) ∧
    (∀ (db : DB) (nid uid content : String) (now : Nat) (note : WatchlistNote)
        (w : WatchlistRec),
        mapGet db.notes nid = some note →
        mapGet db.watchlists note.watchlistId = some w →
        w.userId ≠ uid →
        DB.updateNote db nid uid content now = .error .FORBIDDEN) ∧
    (∀ (db : DB) (nid uid : String) (note : WatchlistNote) (w : WatchlistRec),
        mapGet db.notes nid = some note →
        mapGet db.watchlists note.watchlistId = some w →
        w.userId ≠ uid →
        DB.deleteNote db nid uid = .error .FORBIDDEN) := by
  refine ⟨?_, ?_, ?_, ?_⟩
  · intro db nid uid content now res h
    cases hn : mapGet db.notes nid with
    | none => simp [DB.updateNote, hn] at h
    | some note =>
      cases hw : mapGet db.watchlists note.watchlistId with
      | none => simp [DB.updateNote, hn, getWatchlist_missing (some uid) hw] at h
      | some w =>
        refine ⟨note, w, rfl, hw, ?_⟩
        rcases getWatchlist_found (some uid) hw with hg | hg
        · simp [DB.updateNote, hn, hg] at h
        · by_cases hu : w.userId = uid
          · exact hu
          · simp [DB.updateNote, hn, hg, enrichWatchlistWithCoins, hu] at h
  · intro db nid uid db2 h
    cases hn : mapGet db.notes nid with
    | none => simp [DB.deleteNote, hn] at h
    | some note =>
      cases hw : mapGet db.watchlists note.watchlistId with
      | none => simp [DB.deleteNote, hn, getWatchlist_missing (some uid) hw] at h
      | some w =>
        refine ⟨note, w, rfl, hw, ?_⟩
        rcases getWatchlist_found (some uid) hw with hg | hg
        · simp [DB.deleteNote, hn, hg] at h
        · by_cases hu : w.userId = uid
          · exact hu
          · simp [DB.deleteNote, hn, hg, enrichWatchlistWithCoins, hu] at h
  · intro db nid uid content now note w hn hw hne
    rcases getWatchlist_found (some uid) hw with hg | hg
    · simp [DB.updateNote, hn, hg]
    · simp [DB.updateNote, hn, hg, enrichWatchlistWithCoins, hne]
  · intro db nid uid note w hn hw hne
    rcases getWatchlist_found (some uid) hw with hg | hg
    · simp [DB.deleteNote, hn, hg]
    · simp [DB.deleteNote, hn, hg, enrichWatchlistWithCoins, hne]

def c7db : DB :=
  (emptyDB.createWatchlist "alice"
    { name := "n", description := none, isPublic := some true, tags := none } 5).2

def c7dbN : DB :=
  match c7db.addNote "id_5_1" "alice" "hello" none 6 with
  | .ok r => r.2
  | .error _ => c7db

/-- Witness for C7: on a public watchlist owned by alice carrying one
note, updateNote and deleteNote by bob are refused FORBIDDEN. -/
theorem c7_note_mutation_owner_only_witness :
    DB.updateNote c7dbN "id_6_2" "bob" "x" 9 = .error .FORBIDDEN ∧
    DB.deleteNote c7dbN "id_6_2" "bob" = .error .FORBIDDEN := by
  constructor
  · exact c7_note_mutation_owner_only.2.2.1 c7dbN "id_6_2" "bob" "x" 9
      { id := "id_6_2", watchlistId := "id_5_1", coinId := none, content := "hello",
        createdAt := 6, updatedAt := 6 }
      { id := "id_5_1", userId := "alice", name := "n", description := none,
        isPublic := true, createdAt := 5, updatedAt := 5, tags := [] }
      (by decide) (by decide) (by decide)
  · exact c7_note_mutation_owner_only.2.2.2 c7dbN "id_6_2" "bob"
      { id := "id_6_2", watchlistId := "id_5_1", coinId := none, content := "hello",
        createdAt := 6, updatedAt := 6 }
      { id := "id_5_1", userId := "alice", name := "n", description := none,
        isPublic := true, createdAt := 5, updatedAt := 5, tags := [] }
      (by decide) (by decide) (by decide)

-- ============================================================================
-- Claim C4
-- ============================================================================

/-- Adding a catalog id that is already present in the item list of an
owned watchlist is refused VALIDATION_ERROR. -/
theorem addCoin_dup_rejected (db : DB) (wid uid : String) (p2 : AddCoinParams)
    (now2 : Nat) (w : WatchlistRec)
    (hw : mapGet db.watchlists wid = some w) (hown : w.userId = uid)
    (hdup : ∃ c ∈ (mapGet db.watchlistCoins wid).getD [], c.coinId = p2.coinId) :
    db.addCoinToWatchlist wid uid p2 now2 = .error .VALIDATION_ERROR := by
  have hgw : db.getWatchlist wid (some uid) = .ok (enrichWatchlistWithCoins db w) := by
    simp [DB.getWatchlist, hw, hown]
  have hany : ((mapGet db.watchlistCoins wid).getD []).any
      (fun c => c.coinId == p2.coinId) = true := by
    rcases hdup with ⟨c, hc, he⟩
    exact List.any_eq_true.mpr ⟨c, hc, by simp [he]⟩
  simp [DB.addCoinToWatchlist, hgw, enrichWatchlistWithCoins, hown, hany]

/-- Claim C4: for a watchlist owned by the requester, the first add of a
catalog id not yet present succeeds — appending the item to the item
list and registering the watchlist under the catalog id in the coin
index — and any second add of the same catalog id to the same watchlist
fails VALIDATION_ERROR; the error result carries no store, so the item
list is unchanged by the failed second add. -/
theorem c4_duplicate_coin_rejected
    (db : DB) (wid uid : String) (p : AddCoinParams) (now : Nat) (w : WatchlistRec)
    (hw : mapGet db.watchlists wid = some w) (hown : w.userId = uid)
    (hnew : ∀ c ∈ (mapGet db.watchlistCoins wid).getD [], c.coinId ≠ p.coinId) :
    ∃ coin db2,
      db.addCoinToWatchlist wid uid p now = .ok (coin, db2) ∧
      coin.coinId = p.coinId ∧
      (mapGet db2.watchlistCoins wid).getD [] =
        (mapGet db.watchlistCoins wid).getD [] ++ [coin] ∧
      wid ∈ (mapGet db2.coinWatchlists p.coinId).getD [] ∧
      (∀ (p2 : AddCoinParams) (now2 : Nat), p2.coinId = p.coinId →
        db2.addCoinToWatchlist wid uid p2 now2 = .error .VALIDATION_ERROR) := by
  have hgw : db.getWatchlist wid (some uid) = .ok (enrichWatchlistWithCoins db w) := by
    simp [DB.getWatchlist, hw, hown]
  have hany : ((mapGet db.watchlistCoins wid).getD []).any
      (fun c => c.coinId == p.coinId) = false := by
    rw [List.any_eq_false]
    intro c hc
    simpa using hnew c hc
  refine ⟨{ id := generateId now db.idCounter, watchlistId := wid, coinId := p.coinId,
            symbol := jsOrStr p.symbol (jsToUpper p.coinId),
            name := jsOrStr p.name p.coinId,
            addedAt := now, targetPrice := p.targetPrice, notes := p.notes },
    { db with
        idCounter := db.idCounter + 1,
        watchlistCoins := mapSet db.watchlistCoins wid
          ((mapGet db.watchlistCoins wid).getD [] ++
            [{ id := generateId now db.idCounter, watchlistId := wid, coinId := p.coinId,
               symbol := jsOrStr p.symbol (jsToUpper p.coinId),
               name := jsOrStr p.name p.coinId,
               addedAt := now, targetPrice := p.targetPrice, notes := p.notes }]),
        coinWatchlists := mapSet db.coinWatchlists p.coinId
          ((mapGet db.coinWatchlists p.coinId).getD [] ++ [wid]) },
    ?_, rfl, ?_, ?_, ?_⟩
  · simp [DB.addCoinToWatchlist, hgw, hany, enrichWatchlistWithCoins, hown]
  · simp [mapGet_mapSet_self]
  · simp [mapGet_mapSet_self]
  · intro p2 now2 hp2
    refine addCoin_dup_rejected _ wid uid p2 now2 w hw hown ?_
    refine ⟨{ id := generateId now db.idCounter, watchlistId := wid, coinId := p.coinId,
              symbol := jsOrStr p.symbol (jsToUpper p.coinId),
              name := jsOrStr p.name p.coinId,
              addedAt := now, targetPrice := p.targetPrice, notes := p.notes },
      ?_, ?_⟩
    · show _ ∈ (mapGet (mapSet db.watchlistCoins wid _) wid).getD []
      rw [mapGet_mapSet_self]
      simp
    · simpa using hp2.symm

def c4db : DB :=
  (emptyDB.createWatchlist "alice"
    { name := "n", description := none, isPublic := none, tags := none } 5).2

def c4dbB : DB :=
  match c4db.addCoinToWatchlist "id_5_1" "alice"
    { coinId := "bitcoin", symbol := none, name := none,
      targetPrice := none, notes := none } 6 with
  | .ok r => r.2
  | .error _ => c4db

/-- Witness for C4: adding "bitcoin" to a fresh watchlist succeeds, and
a second add of "bitcoin" to the resulting store is refused
VALIDATION_ERROR. -/
theorem c4_duplicate_coin_rejected_witness :
    exceptOk (c4db.addCoinToWatchlist "id_5_1" "alice"
      { coinId := "bitcoin", symbol := none, name := none,
        targetPrice := none, notes := none } 6) = true ∧
    c4dbB.addCoinToWatchlist "id_5_1" "alice"
      { coinId := "bitcoin", symbol := none, name := none,
        targetPrice := none, notes := none } 7 = .error .VALIDATION_ERROR := by
  obtain ⟨coin, db2, h1, h2, _, _, h5⟩ :=
    c4_duplicate_coin_rejected c4db "id_5_1" "alice"
      { coinId := "bitcoin", symbol := none, name := none,
        targetPrice := none, notes := none } 6
      { id := "id_5_1", userId := "alice", name := "n", description := none,
        isPublic := false, createdAt := 5, updatedAt := 5, tags := [] }
      (by decide) (by decide) (by decide)
  constructor
  · rw [h1]
    rfl
  · have hb : c4dbB = db2 := by
      simp only [c4dbB, h1]
    rw [hb]
    exact h5 _ 7 rfl

-- ============================================================================
-- Claim C8
-- ============================================================================

/-- A successful database updateWatchlist by the owner: the new record
is the merge, the watchlist map is updated in place, and every other
primary collection is untouched. -/
theorem updateWatchlist_ok (db : DB) (wid uid : String) (u : WatchlistUpdates)
    (now : Nat) (w : WatchlistRec)
    (hw : mapGet db.watchlists wid = some w) (hown : w.userId = uid) :
    ∃ db2,
      db.updateWatchlist wid uid u now =
        .ok (enrichWatchlistWithCoins db2 (applyUpdates w u now), db2) ∧
      db2.watchlists = mapSet db.watchlists wid (applyUpdates w u now) ∧
      db2.watchlistCoins = db.watchlistCoins ∧
      db2.notes = db.notes ∧
      db2.userWatchlists = db.userWatchlists ∧
      db2.coinWatchlists = db.coinWatchlists ∧
      db2.publicWatchlists =
        (match u.isPublic with
         | none => db.publicWatchlists
         | some b =>
           if b then setAdd db.publicWatchlists wid
           else setDelete db.publicWatchlists wid) := by
  cases hpp : u.isPublic with
  | none =>
    refine ⟨{ db with watchlists := mapSet db.watchlists wid (applyUpdates w u now) },
      ?_, rfl, rfl, rfl, rfl, rfl, by simp [hpp]⟩
    simp [DB.updateWatchlist, hw, hown, hpp]
  | some b =>
    cases b with
    | true =>
      refine ⟨{ db with
          watchlists := mapSet db.watchlists wid (applyUpdates w u now),
          publicWatchlists := setAdd db.publicWatchlists wid },
        ?_, rfl, rfl, rfl, rfl, rfl, by simp [hpp]⟩
      simp [DB.updateWatchlist, hw, hown, hpp]
    | false =>
      refine ⟨{ db with
          watchlists := mapSet db.watchlists wid (applyUpdates w u now),
          publicWatchlists := setDelete db.publicWatchlists wid },
        ?_, rfl, rfl, rfl, rfl, rfl, by simp [hpp]⟩
      simp [DB.updateWatchlist, hw, hown, hpp]

/-- Claim C8: a successful service updateWatchlist by the owner changes
exactly the supplied fields among name, description, isPublic and tags
(trimming the strings, as the service layer does) and refreshes the
update timestamp, while the identifier, the owner id, the creation
timestamp, the item rows and the notes are unchanged; unsupplied fields
keep their prior values. -/
theorem c8_update_watchlist_frame
    (db : DB) (wid uid : String) (p : UpdateWatchlistParams) (now : Nat)
    (w : WatchlistRec)
    (hw : mapGet db.watchlists wid = some w) (hown : w.userId = uid) :
    ∃ enr db2 w2,
      Service.updateWatchlist db wid uid p now = .ok (enr, db2) ∧
      mapGet db2.watchlists wid = some w2 ∧
      enr.record = w2 ∧
      w2.id = w.id ∧
      w2.userId = w.userId ∧
      w2.createdAt = w.createdAt ∧
      w2.updatedAt = now ∧
      w2.name = (match p.name with | some n => jsTrim n | none => w.name) ∧
      w2.description =
        (match p.description with | some d => some (jsTrim d) | none => w.description) ∧
      w2.isPublic = (match p.isPublic with | some b => b | none => w.isPublic) ∧
      w2.tags = (match p.tags with | some ts => ts | none => w.tags) ∧
      db2.watchlistCoins = db.watchlistCoins ∧
      db2.notes = db.notes := by
  obtain ⟨db2, hkey, hmaps, hcoins, hnotes, _, _, _⟩ :=
    updateWatchlist_ok db wid uid
      { name := p.name.map jsTrim, description := p.description.map jsTrim,
        isPublic := p.isPublic, tags := p.tags } now w hw hown
  refine ⟨_, db2, applyUpdates w
      { name := p.name.map jsTrim, description := p.description.map jsTrim,
        isPublic := p.isPublic, tags := p.tags } now,
    hkey, ?_, rfl, ?_, ?_, ?_, ?_, ?_, ?_, ?_, ?_, hcoins, hnotes⟩
  · rw [hmaps, mapGet_mapSet_self]
  · simp [applyUpdates]
  · simp [applyUpdates]
  · simp [applyUpdates]
  · simp [applyUpdates]
  · cases p.name <;> simp [applyUpdates]
  · cases p.description <;> simp [applyUpdates]
  · cases p.isPublic <;> simp [applyUpdates]
  · cases p.tags <;> simp [applyUpdates]

def c8db : DB :=
  (emptyDB.createWatchlist "alice"
    { name := "n", description := some "d", isPublic := some false,
      tags := some ["a"] } 5).2

/-- Witness for C8 at a concrete update that supplies only the name. -/
theorem c8_update_watchlist_frame_witness :
    exceptOk (Service.updateWatchlist c8db "id_5_1" "alice"
      { name := some " fresh ", description := none, isPublic := none,
        tags := none } 9) = true := by
  obtain ⟨enr, db2, w2, hkey, _⟩ :=
    c8_update_watchlist_frame c8db "id_5_1" "alice"
      { name := some " fresh ", description := none, isPublic := none, tags := none }
      9
      { id := "id_5_1", userId := "alice", name := "n", description := some "d",
        isPublic := false, createdAt := 5, updatedAt := 5, tags := ["a"] }
      (by decide) (by decide)
  rw [hkey]
  rfl

-- ============================================================================
-- Claim C3
-- ============================================================================

/-- Entry keys of the watchlist map agree with the id stored in the
record (true of every state built by the operations). -/
def keysMatch (db : DB) : Prop := ∀ q ∈ db.watchlists, q.1 = q.2.id

/-- The watchlist map has no duplicate keys (a JavaScript Map cannot). -/
def watchlistKeysNodup (db : DB) : Prop := (db.watchlists.map Prod.fst).Nodup

/-- Every id in the public set refers to a stored watchlist. -/
def publicIndexBacked (db : DB) : Prop :=
  ∀ i ∈ db.publicWatchlists, (mapGet db.watchlists i).isSome = true

/-- Structural well-formedness of a reachable store. -/
def DBwf (db : DB) : Prop := watchlistKeysNodup db ∧ keysMatch db ∧ publicIndexBacked db

/-- The claimed invariant: a stored watchlist id is in the public set
exactly when its visibility flag is public. -/
def publicIndexInv (db : DB) : Prop :=
  ∀ q ∈ db.watchlists, (q.2.id ∈ db.publicWatchlists ↔ q.2.isPublic = true)

theorem mapGet_mapSet_isSome {α : Type} {m : List (String × α)} {k2 : String}
    (k : String) (v : α)
    (h : (mapGet m k2).isSome = true) : (mapGet (mapSet m k v) k2).isSome = true := by
  by_cases he : k = k2
  · subst he
    rw [mapGet_mapSet_self]
    rfl
  · rw [mapGet_mapSet_ne m v he]
    exact h

/-- The watchlist map and public set produced by createWatchlist. -/
theorem createWatchlist_state (db : DB) (uid : String) (p : CreateWatchlistParams)
    (now : Nat) :
    (db.createWatchlist uid p now).2.watchlists =
      mapSet db.watchlists (newWatchlistRec db uid p now).id
        (newWatchlistRec db uid p now) ∧
    (db.createWatchlist uid p now).2.publicWatchlists =
      (if (newWatchlistRec db uid p now).isPublic
       then setAdd db.publicWatchlists (newWatchlistRec db uid p now).id
       else db.publicWatchlists) := by
  by_cases hb : (newWatchlistRec db uid p now).isPublic = true <;>
    simp [DB.createWatchlist, hb]

/-- A successful updateWatchlist implies the watchlist exists and the
requester is its owner. -/
theorem updateWatchlist_ok_inv {db : DB} {wid uid : String} {u : WatchlistUpdates}
    {now : Nat} {res : Enriched × DB}
    (h : db.updateWatchlist wid uid u now = .ok res) :
    ∃ w, mapGet db.watchlists wid = some w ∧ w.userId = uid := by
  cases hw : mapGet db.watchlists wid with
  | none => simp [DB.updateWatchlist, hw] at h
  | some w =>
    by_cases ho : w.userId = uid
    · exact ⟨w, rfl, ho⟩
    · simp [DB.updateWatchlist, hw, ho] at h

/-- Claim C3: for every well-formed store satisfying the invariant that
a stored watchlist id is in the public set exactly when the watchlist is
public, the invariant (together with well-formedness) holds again after
createWatchlist with a fresh generated id, and after every successful
updateWatchlist — including updates that flip the visibility flag in
either direction. -/
theorem c3_public_index_iff_isPublic :
    (∀ (db : DB) (uid : String) (p : CreateWatchlistParams) (now : Nat),
        DBwf db → publicIndexInv db →
        mapGet db.watchlists (generateId now db.idCounter) = none →
        publicIndexInv (db.createWatchlist uid p now).2 ∧
          DBwf (db.createWatchlist uid p now).2) ∧
    (∀ (db : DB) (wid uid : String) (u : WatchlistUpdates) (now : Nat)
        (res : Enriched × DB),
        DBwf db → publicIndexInv db →
        db.updateWatchlist wid uid u now = .ok res →
        publicIndexInv res.2 ∧ DBwf res.2) := by
  constructor
  · intro db uid p now hwf hinv hfresh
    obtain ⟨hnd, hkm, hback⟩ := hwf
    obtain ⟨hwl, hpubl⟩ := createWatchlist_state db uid p now
    set nw := newWatchlistRec db uid p now with hnw
    have hfresh2 : mapGet db.watchlists nw.id = none := hfresh
    have hnotin : nw.id ∉ db.watchlists.map Prod.fst :=
      (mapGet_eq_none_iff _ _).mp hfresh2
    have happend : mapSet db.watchlists nw.id nw = db.watchlists ++ [(nw.id, nw)] :=
      mapSet_of_fresh nw hfresh2
    constructor
    · intro q hq
      rw [hwl, happend] at hq
      rw [hpubl]
      rcases List.mem_append.mp hq with hqo | hqn
      · have hqid : q.1 = q.2.id := hkm q hqo
        have hqne : q.2.id ≠ nw.id := by
          intro he
          apply hnotin
          rw [← he, ← hqid]
          exact List.mem_map_of_mem Prod.fst hqo
        by_cases hb : nw.isPublic = true
        · simp only [hb, if_true, mem_setAdd]
          constructor
          · rintro (h | h)
            · exact (hinv q hqo).mp h
            · exact absurd h hqne
          · intro h
            exact Or.inl ((hinv q hqo).mpr h)
        · simp only [hb, if_false]
          exact hinv q hqo
      · have hqe : q = (nw.id, nw) := by simpa using hqn
        subst hqe
        by_cases hb : nw.isPublic = true
        · simp [hb, mem_setAdd]
        · simp only [hb, if_false]
          constructor
          · intro h
            have hs := hback _ h
            rw [hfresh2] at hs
            simp at hs
          · intro h
            simp at h
    · refine ⟨?_, ?_, ?_⟩
      · show ((db.createWatchlist uid p now).2.watchlists.map Prod.fst).Nodup
        rw [hwl, keys_mapSet, if_neg hnotin]
        refine List.Nodup.append hnd (List.nodup_singleton _) ?_
        intro a ha hb2
        simp at hb2
        subst hb2
        exact hnotin ha
      · intro q hq
        rw [hwl, happend] at hq
        rcases List.mem_append.mp hq with h | h
        · exact hkm q h
        · have hqe : q = (nw.id, nw) := by simpa using h
          rw [hqe]
      · intro i hi
        rw [hwl]
        rw [hpubl] at hi
        by_cases hb : nw.isPublic = true
        · simp only [hb, if_true] at hi
          rcases mem_setAdd.mp hi with h | h
          · exact mapGet_mapSet_isSome nw.id nw (hback i h)
          · subst h
            rw [mapGet_mapSet_self]
            rfl
        · simp only [hb, if_false] at hi
          exact mapGet_mapSet_isSome nw.id nw (hback i hi)
  · intro db wid uid u now res hwf hinv hok
    obtain ⟨hnd, hkm, hback⟩ := hwf
    obtain ⟨w, hw, hown⟩ := updateWatchlist_ok_inv hok
    obtain ⟨db2, hkey, hmaps, _, _, _, _, hpub2⟩ :=
      updateWatchlist_ok db wid uid u now w hw hown
    have hres2 : res.2 = db2 := by
      have he := hok.symm.trans hkey
      simp only [Except.ok.injEq] at he
      rw [he]
    rw [hres2]
    have hwmem : (wid, w) ∈ db.watchlists := mapGet_mem hw
    have hwid : w.id = wid := (hkm (wid, w) hwmem).symm
    have hwidmem : wid ∈ db.watchlists.map Prod.fst := by
      rw [← mapGet_isSome_iff, hw]
      rfl
    have hinvw : w.id ∈ db.publicWatchlists ↔ w.isPublic = true := hinv (wid, w) hwmem
    have hw2id : (applyUpdates w u now).id = w.id := rfl
    constructor
    · intro q hq
      rw [hmaps] at hq
      rcases mem_mapSet_elim hnd hq with ⟨hqo, hqne⟩ | hqe
      · have hqne2 : q.2.id ≠ wid := by
          rw [← hkm q hqo]
          exact hqne
        cases hu : u.isPublic with
        | none =>
          rw [hu] at hpub2
          simp at hpub2
          rw [hpub2]
          exact hinv q hqo
        | some b =>
          rw [hu] at hpub2
          cases b with
          | true =>
            simp at hpub2
            rw [hpub2, mem_setAdd]
            constructor
            · rintro (h | h)
              · exact (hinv q hqo).mp h
              · exact absurd h hqne2
            · intro h
              exact Or.inl ((hinv q hqo).mpr h)
          | false =>
            simp at hpub2
            rw [hpub2, mem_setDelete]
            constructor
            · rintro ⟨h, _⟩
              exact (hinv q hqo).mp h
            · intro h
              exact ⟨(hinv q hqo).mpr h, hqne2⟩
      · subst hqe
        have hidw : (wid, applyUpdates w u now).2.id = wid := by
          show (applyUpdates w u now).id = wid
          rw [hw2id, hwid]
        cases hu : u.isPublic with
        | none =>
          rw [hu] at hpub2
          simp at hpub2
          have hflag : (wid, applyUpdates w u now).2.isPublic = w.isPublic := by
            show (applyUpdates w u now).isPublic = w.isPublic
            simp [applyUpdates, hu]
          rw [hpub2, hidw, hflag, ← hwid]
          exact hinvw
        | some b =>
          rw [hu] at hpub2
          cases b with
          | true =>
            simp at hpub2
            have hflag : (wid, applyUpdates w u now).2.isPublic = true := by
              show (applyUpdates w u now).isPublic = true
              simp [applyUpdates, hu]
            rw [hpub2, hidw, hflag]
            simp [mem_setAdd]
          | false =>
            simp at hpub2
            have hflag : (wid, applyUpdates w u now).2.isPublic = false := by
              show (applyUpdates w u now).isPublic = false
              simp [applyUpdates, hu]
            rw [hpub2, hidw, hflag]
            simp [mem_setDelete]
    · refine ⟨?_, ?_, ?_⟩
      · show (db2.watchlists.map Prod.fst).Nodup
        rw [hmaps, keys_mapSet]
        simp only [hwidmem, if_true]
        exact hnd
      · intro q hq
        rw [hmaps] at hq
        rcases mem_mapSet_elim hnd hq with ⟨hqo, _⟩ | hqe
        · exact hkm q hqo
        · rw [hqe]
          show wid = (applyUpdates w u now).id
          rw [hw2id, hwid]
      · intro i hi
        rw [hmaps]
        cases hu : u.isPublic with
        | none =>
          rw [hu] at hpub2
          simp at hpub2
          rw [hpub2] at hi
          exact mapGet_mapSet_isSome wid (applyUpdates w u now) (hback i hi)
        | some b =>
          rw [hu] at hpub2
          cases b with
          | true =>
            simp at hpub2
            rw [hpub2] at hi
            rcases mem_setAdd.mp hi with h | h
            · exact mapGet_mapSet_isSome wid (applyUpdates w u now) (hback i h)
            · subst h
              rw [mapGet_mapSet_self]
              rfl
          | false =>
            simp at hpub2
            rw [hpub2] at hi
            exact mapGet_mapSet_isSome wid (applyUpdates w u now)
              (hback i (mem_setDelete.mp hi).1)

def c3db : DB :=
  (emptyDB.createWatchlist "alice"
    { name := "n", description := none, isPublic := some true, tags := none } 5).2

def c3res : Enriched × DB :=
  match c3db.updateWatchlist "id_5_1" "alice"
    { name := none, description := none, isPublic := some false, tags := none } 6 with
  | .ok r => r
  | .error _ =>
    (enrichWatchlistWithCoins c3db (newWatchlistRec emptyDB "alice"
      { name := "n", description := none, isPublic := some true, tags := none } 5), c3db)

/-- Witness for C3: creating a public watchlist on the empty store
establishes the invariant, and an update flipping it to private
preserves it. -/
theorem c3_public_index_iff_isPublic_witness :
    (publicIndexInv c3db ∧ DBwf c3db) ∧
    (publicIndexInv c3res.2 ∧ DBwf c3res.2) := by
  have h1 := c3_public_index_iff_isPublic.1 emptyDB "alice"
    { name := "n", description := none, isPublic := some true, tags := none } 5
    (⟨by simp [watchlistKeysNodup, emptyDB],
      by intro q hq; simp [emptyDB] at hq,
      by intro i hi; simp [emptyDB] at hi⟩)
    (by intro q hq; simp [emptyDB] at hq)
    (by decide)
  refine ⟨h1, ?_⟩
  exact c3_public_index_iff_isPublic.2 c3db "id_5_1" "alice"
    { name := none, description := none, isPublic := some false, tags := none } 6 c3res
    h1.2 h1.1 (by decide)

-- ============================================================================
-- Claim C6
-- ============================================================================

/-- The limit handling exactly as the claim words it: default 20 when
the limit is absent, otherwise the supplied value clamped to the
inclusive range [1, 100]. -/
def claimedLimit (limit : Option Int) : Int :=
  match limit with
  | none => 20
  | some v => min 100 (max 1 v)

/-- Counterexample to C6 as stated: with a supplied limit of 0, the
claimed clamping of the supplied value into [1, 100] would give 1, but
the code treats the falsy 0 as absent and uses the default 20. -/
theorem c6_limit_zero_counterexample :
    ¬ ((Service.getPublicWatchlists emptyDB
        { page := none, limit := some 0, search := none, tags := none }).limit
      = claimedLimit (some 0)) := by
  decide

theorem jsOrNum_of_pos {v : Int} (d : Int) (h : 0 < v) : jsOrNum (some v) d = v := by
  show (if v = 0 then d else v) = v
  rw [if_neg (by omega)]

/-- Claim C6 (amended): a supplied page or limit of 0 is falsy in the
source and is replaced by its default (1 and 20 respectively) before
the flooring and clamping; with the effective page = max(1, page or 1)
and effective limit = min(100, max(1, limit or 20)), the response
reports exactly those effective values, total is the count of the
filtered public directory before pagination, data is the slice
[offset, offset+limit) with offset = (page-1)*limit of that filtered
order-preserving list, hasNext = page*limit < total, and hasPrevious =
page > 1 — so with 45 matches and limit 20, page 1 yields 20 rows with
hasNext and not hasPrevious, page 3 yields 5 rows with hasPrevious and
not hasNext. -/
theorem c6_pagination_amended (db : DB) (params : GetPublicWatchlistsParams) :
    let page := max 1 (jsOrNum params.page 1)
    let limit := min 100 (max 1 (jsOrNum params.limit 20))
    let matching := filteredPublic db (params.search.map jsTrim)
      (params.tags.map (fun ts => (ts.map jsTrim).filter (fun t => t.length > 0)))
    let r := Service.getPublicWatchlists db params
    r.page = page ∧
    r.limit = limit ∧
    r.total = (matching.length : Int) ∧
    r.data = jsSlice matching ((page - 1) * limit) ((page - 1) * limit + limit) ∧
    r.hasNext = decide (page * limit < (matching.length : Int)) ∧
    r.hasPrevious = decide (1 < page) := by
  have hp : (0 : Int) < max 1 (jsOrNum params.page 1) := by
    have h1 := le_max_left 1 (jsOrNum params.page 1)
    omega
  have hl : (0 : Int) < min 100 (max 1 (jsOrNum params.limit 20)) := by
    have h1 := le_max_left 1 (jsOrNum params.limit 20)
    have h2 := min_le_left (100 : Int) (max 1 (jsOrNum params.limit 20))
    have h3 := min_le_right (100 : Int) (max 1 (jsOrNum params.limit 20))
    omega
  refine ⟨?_, ?_, ?_, ?_, ?_, ?_⟩ <;>
    simp only [Service.getPublicWatchlists, DB.getPublicWatchlists,
      DEFAULT_PAGE_SIZE, MAX_PAGE_SIZE, jsOrNum_of_pos 1 hp, jsOrNum_of_pos 20 hl]

end CoinWatch
